import Mathlib

/-!
Verification development for the Colour module (a terminal text-styling
engine over ANSI escape codes).

The engine is shallowly embedded: Python values reaching the engine are an
inductive type carrying their textual form, the Colour enum is an inductive
with its ANSI code table, each formatter is a Lean function translated from
the corresponding Python method, and raising an exception is returning an
Except.error.  Python floats are carried by their textual repr (the engine
only ever applies str() to them), and arbitrary foreign objects carry their
type name and their str() form.
-/

deriving instance DecidableEq for Except

namespace ColourModule

/-- Python values that can reach the engine: None, bool, int, float, str,
and any other object (carrying its type name and its str() form). -/
inductive Payload where
  | pNone : Payload
  | pBool : Bool → Payload
  | pInt : Int → Payload
  | pFloat : String → Payload
  | pStr : String → Payload
  | pOther : String → String → Payload
deriving DecidableEq

/-- Python str() on a payload. -/
def pyStr : Payload → String
  | .pNone => "None"
  | .pBool b => if b then "True" else "False"
  | .pInt n => toString n
  | .pFloat r => r
  | .pStr s => s
  | .pOther _ s => s

/-- Python type(x).__name__ on a payload. -/
def typeName : Payload → String
  | .pNone => "NoneType"
  | .pBool _ => "bool"
  | .pInt _ => "int"
  | .pFloat _ => "float"
  | .pStr _ => "str"
  | .pOther t _ => t

/-- isinstance(text, (str, int, float, bool, type(None))). -/
def Payload.isSupported : Payload → Bool
  | .pOther _ _ => false
  | _ => true

/-- isinstance(x, str). -/
def Payload.isStr : Payload → Bool
  | .pStr _ => true
  | _ => false

/-- The exceptions the module raises (each carries its message). -/
inductive PyError where
  | colourFormatError : String → PyError
  | listIndexOutOfRange : String → PyError
  | dictKeyMissing : String → PyError
  | dictValueMissing : String → PyError
  | valueError : String → PyError
deriving DecidableEq

/-- The Colour enum members, in declaration order. -/
inductive Colour where
  | RED | GREEN | YELLOW | BLUE | CYAN | MAGENTA | WHITE | BLACK
  | LIGHTRED | LIGHTGREEN | LIGHTYELLOW | LIGHTBLUE | LIGHTMAGENTA | LIGHTCYAN | GREY
  | BG_RED | BG_GREEN | BG_YELLOW | BG_BLUE | BG_CYAN | BG_MAGENTA | BG_WHITE | BG_BLACK
  | BG_LIGHTRED | BG_LIGHTGREEN | BG_LIGHTYELLOW | BG_LIGHTBLUE | BG_LIGHTMAGENTA | BG_LIGHTCYAN | BG_GREY
  | BRIGHT | DIM | NORMAL | RESET
deriving DecidableEq

/-- The value of each enum member: its ANSI escape string. -/
def Colour.value : Colour → String
  | .RED => "\x1b[31m"
  | .GREEN => "\x1b[32m"
  | .YELLOW => "\x1b[33m"
  | .BLUE => "\x1b[34m"
  | .CYAN => "\x1b[36m"
  | .MAGENTA => "\x1b[35m"
  | .WHITE => "\x1b[37m"
  | .BLACK => "\x1b[30m"
  | .LIGHTRED => "\x1b[91m"
  | .LIGHTGREEN => "\x1b[92m"
  | .LIGHTYELLOW => "\x1b[93m"
  | .LIGHTBLUE => "\x1b[94m"
  | .LIGHTMAGENTA => "\x1b[95m"
  | .LIGHTCYAN => "\x1b[96m"
  | .GREY => "\x1b[90m"
  | .BG_RED => "\x1b[41m"
  | .BG_GREEN => "\x1b[42m"
  | .BG_YELLOW => "\x1b[43m"
  | .BG_BLUE => "\x1b[44m"
  | .BG_CYAN => "\x1b[46m"
  | .BG_MAGENTA => "\x1b[45m"
  | .BG_WHITE => "\x1b[47m"
  | .BG_BLACK => "\x1b[40m"
  | .BG_LIGHTRED => "\x1b[101m"
  | .BG_LIGHTGREEN => "\x1b[102m"
  | .BG_LIGHTYELLOW => "\x1b[103m"
  | .BG_LIGHTBLUE => "\x1b[104m"
  | .BG_LIGHTMAGENTA => "\x1b[105m"
  | .BG_LIGHTCYAN => "\x1b[106m"
  | .BG_GREY => "\x1b[100m"
  | .BRIGHT => "\x1b[1m"
  | .DIM => "\x1b[2m"
  | .NORMAL => "\x1b[22m"
  | .RESET => "\x1b[0m"

/-- Colour.__members__: the (name, member) pairs in declaration order. -/
def members : List (String × Colour) :=
  [("RED", .RED), ("GREEN", .GREEN), ("YELLOW", .YELLOW), ("BLUE", .BLUE),
   ("CYAN", .CYAN), ("MAGENTA", .MAGENTA), ("WHITE", .WHITE), ("BLACK", .BLACK),
   ("LIGHTRED", .LIGHTRED), ("LIGHTGREEN", .LIGHTGREEN), ("LIGHTYELLOW", .LIGHTYELLOW),
   ("LIGHTBLUE", .LIGHTBLUE), ("LIGHTMAGENTA", .LIGHTMAGENTA), ("LIGHTCYAN", .LIGHTCYAN),
   ("GREY", .GREY),
   ("BG_RED", .BG_RED), ("BG_GREEN", .BG_GREEN), ("BG_YELLOW", .BG_YELLOW),
   ("BG_BLUE", .BG_BLUE), ("BG_CYAN", .BG_CYAN), ("BG_MAGENTA", .BG_MAGENTA),
   ("BG_WHITE", .BG_WHITE), ("BG_BLACK", .BG_BLACK),
   ("BG_LIGHTRED", .BG_LIGHTRED), ("BG_LIGHTGREEN", .BG_LIGHTGREEN),
   ("BG_LIGHTYELLOW", .BG_LIGHTYELLOW), ("BG_LIGHTBLUE", .BG_LIGHTBLUE),
   ("BG_LIGHTMAGENTA", .BG_LIGHTMAGENTA), ("BG_LIGHTCYAN", .BG_LIGHTCYAN),
   ("BG_GREY", .BG_GREY),
   ("BRIGHT", .BRIGHT), ("DIM", .DIM), ("NORMAL", .NORMAL), ("RESET", .RESET)]

/-- Colour.__call__(self, text): type-check the payload, then wrap it as
escape code, str(text), reset code. -/
def colourCall (c : Colour) (text : Payload) : Except PyError String :=
  if !text.isSupported then
    .error (.colourFormatError ("Unsupported type: " ++ typeName text))
  else
    .ok (c.value ++ pyStr text ++ Colour.RESET.value)

/-- The result of an enumeration request: either a member name or a member. -/
inductive EnumItem where
  | nameItem : String → EnumItem
  | memberItem : Colour → EnumItem
deriving DecidableEq

/-- The skip set used by get_supported_colours (note it also lists
RANDOMISE, which is not a member of the enum). -/
def skipNames : List String := ["BRIGHT", "DIM", "NORMAL", "RESET", "RANDOMISE"]

/-- Colour.get_supported_colours(mode). -/
def get_supported_colours (mode : String) : Except PyError (List EnumItem) :=
  if mode == "member" then
    .ok ((members.filter (fun p => !(skipNames.contains p.1))).map (fun p => .memberItem p.2))
  else if mode == "name" then
    .ok ((members.filter (fun p => !(skipNames.contains p.1))).map (fun p => .nameItem p.1))
  else
    .error (.valueError ("Invalid mode: " ++ mode))

/-- Colour.styled(self, text, *others): all the codes, the text, one reset. -/
def styled (c : Colour) (text : String) (others : List Colour) : String :=
  String.join ((c :: others).map Colour.value) ++ text ++ Colour.RESET.value

/-- Wrapping a string payload in a style: the success value of colourCall on
a str payload (the formatters only style elements already checked to be str). -/
def applyStr (c : Colour) (s : String) : String :=
  c.value ++ s ++ Colour.RESET.value

/-- The styled form of a list element, as the comprehensions produce it. -/
def stylePayload (c : Colour) (p : Payload) : Payload :=
  .pStr (c.value ++ pyStr p ++ Colour.RESET.value)

/-- Colour._ListFormatter.__call__(self, items, indices=None).  The Python
list is a Lean list of payloads; self.colour(i) inside the comprehension is
colourCall, whose possible error propagates as the comprehension would
propagate the raise. -/
def ListFormatter (c : Colour) (items : List Payload) (indices : Option (List Int)) :
    Except PyError (List Payload) :=
  if !(items.all Payload.isStr) then
    .error (.colourFormatError "All list items must be strings.")
  else
    match indices with
    | none => items.mapM (fun i => (colourCall c i).map Payload.pStr)
    | some idxs =>
      match idxs.find? (fun idx => decide (idx < 0) || decide ((items.length : Int) ≤ idx)) with
      | some bad => .error (.listIndexOutOfRange ("Index " ++ toString bad ++ " out of range."))
      | none =>
        items.enum.mapM (fun p =>
          if idxs.contains (p.1 : Int) then (colourCall c p.2).map Payload.pStr else .ok p.2)

/-- Colour._TupleFormatter.__call__(self, items, indices=None): identical to
the list formatter except for the error message and the tuple result (the
tuple is also modelled as a Lean list). -/
def TupleFormatter (c : Colour) (items : List Payload) (indices : Option (List Int)) :
    Except PyError (List Payload) :=
  if !(items.all Payload.isStr) then
    .error (.colourFormatError "All tuple items must be strings.")
  else
    match indices with
    | none => items.mapM (fun i => (colourCall c i).map Payload.pStr)
    | some idxs =>
      match idxs.find? (fun idx => decide (idx < 0) || decide ((items.length : Int) ≤ idx)) with
      | some bad => .error (.listIndexOutOfRange ("Index " ++ toString bad ++ " out of range."))
      | none =>
        items.enum.mapM (fun p =>
          if idxs.contains (p.1 : Int) then (colourCall c p.2).map Payload.pStr else .ok p.2)

/-- Python truthiness of an optional list argument: None and the empty list
are falsy. -/
def truthy {α : Type} : Option (List α) → Bool
  | none => false
  | some l => !l.isEmpty

/-- The body of the dict formatter's output loop: per entry, the key is
selected when no key list was given or the key is listed, likewise for the
value, and the target selector decides which selected sides get styled. -/
def dictEntry (c : Colour) (keys values : Option (List String)) (target : String)
    (kv : String × String) : String × String :=
  let kOk := keys.isNone || (keys.getD []).contains kv.1
  let vOk := values.isNone || (values.getD []).contains kv.2
  if target == "key" then
    ((if kOk then applyStr c kv.1 else kv.1), kv.2)
  else if target == "value" then
    (kv.1, (if vOk then applyStr c kv.2 else kv.2))
  else
    ((if kOk then applyStr c kv.1 else kv.1),
     (if vOk then applyStr c kv.2 else kv.2))

/-- Python dict assignment out[k] = v on an insertion-ordered dict: when k
is already a key, its value is overwritten in place (the entry keeps its
position); otherwise the new entry is appended at the end. -/
def dictInsert (out : List (String × String)) (k v : String) :
    List (String × String) :=
  if (out.map Prod.fst).contains k then
    out.map (fun kv => if kv.1 == k then (kv.1, v) else kv)
  else
    out ++ [(k, v)]

/-- Colour._DictFormatter.__call__(self, items, keys=None, values=None,
target="value").  The dict is modelled as its insertion-ordered list of
(key, value) entries with string keys and string values (the mapping
contract; the all-keys-are-strings check is then always satisfied).  The
output dict is built entry by entry with dict assignment, so a produced
key that collides with an earlier produced key overwrites that entry
in place, exactly as Python's out[...] = ... does. -/
def DictFormatter (c : Colour) (items : List (String × String))
    (keys : Option (List String)) (values : Option (List String)) (target : String) :
    Except PyError (List (String × String)) :=
  if !(target == "key" || target == "value" || target == "both") then
    .error (.colourFormatError "Target must be \x27key\x27,\x27value\x27, or \x27both\x27.")
  else
    match (if truthy keys then (keys.getD []).find? (fun k => !((items.map Prod.fst).contains k)) else none) with
    | some k => .error (.dictKeyMissing ("Key \x27" ++ k ++ "\x27 missing."))
    | none =>
      match (if truthy values then (values.getD []).find? (fun v => !((items.map Prod.snd).contains v)) else none) with
      | some v => .error (.dictValueMissing ("Value \x27" ++ v ++ "\x27 missing."))
      | none =>
        .ok (items.foldl (fun out kv =>
          dictInsert out (dictEntry c keys values target kv).1
            (dictEntry c keys values target kv).2) [])

/-- Colour._TargetFormatter: the state captured at construction. -/
structure TargetFormatter where
  colour : Colour
  targets : List String
deriving DecidableEq

/-- Colour.TARGET(self, *args): build the formatter, stringifying every
supplied target literal (the Python set is modelled as the list of the
stringified literals; only membership is ever used). -/
def TARGET (c : Colour) (args : List Payload) : TargetFormatter :=
  ⟨c, args.map pyStr⟩

/-- Colour._TargetFormatter.__call__(self, text): per character of
str(text), wrap the character when it is a member of the target set, pass
it through unchanged otherwise, and join the pieces. -/
def targetCall (f : TargetFormatter) (text : Payload) : String :=
  String.join ((pyStr text).data.map (fun ch =>
    if f.targets.contains ch.toString then
      f.colour.value ++ ch.toString ++ Colour.RESET.value
    else
      ch.toString))

/-- The default candidate pool of the random formatter:
Colour.get_supported_colours('member'). -/
def memberPool : List Colour :=
  (members.filter (fun p => !(skipNames.contains p.1))).map Prod.snd

/-- Python `pool or self._pool`: None and the empty list both fall back to
the default pool. -/
def poolOf : Option (List Colour) → List Colour
  | none => memberPool
  | some p => if p.isEmpty then memberPool else p

/-- _RandomFormatter.pick(self, pool=None), with the randomness source made
explicit (spec section 5 requires a seedable source): r is the drawn random
index, reduced into the candidate pool.  The pool is never empty (an empty
argument falls back to the default pool), so the getD default is never
reached. -/
def pick (pool : Option (List Colour)) (r : Nat) : Colour :=
  (poolOf pool).getD (r % (poolOf pool).length) .RESET

/-- _RandomFormatter.SINGLE(self, v, c=None). -/
def randomSINGLE (r : Nat) (v : Payload) (c : Option (List Colour)) : Except PyError String :=
  colourCall (pick c r) v

/-- _RandomFormatter.LIST(self, items, indices=None, c=None). -/
def randomLIST (r : Nat) (items : List Payload) (indices : Option (List Int))
    (c : Option (List Colour)) : Except PyError (List Payload) :=
  ListFormatter (pick c r) items indices

/-- _RandomFormatter.TUPLE(self, items, indices=None, c=None). -/
def randomTUPLE (r : Nat) (items : List Payload) (indices : Option (List Int))
    (c : Option (List Colour)) : Except PyError (List Payload) :=
  TupleFormatter (pick c r) items indices

/-- _RandomFormatter.DICT(self, items, keys=None, values=None,
target="value", c=None). -/
def randomDICT (r : Nat) (items : List (String × String)) (keys : Option (List String))
    (values : Option (List String)) (target : String) (c : Option (List Colour)) :
    Except PyError (List (String × String)) :=
  DictFormatter (pick c r) items keys values target

/-- The reset escape sequence, as a character list. -/
def resetChars : List Char := ['\x1b', '[', '0', 'm']

/-- Boolean test that pat is an initial segment of l. -/
def isPre : List Char -> List Char -> Bool
  | [], _ => true
  | _ :: _, [] => false
  | a :: as, b :: bs => a == b && isPre as bs

/-- Number of positions of l at which pat occurs as a contiguous block. -/
def countOcc (pat : List Char) : List Char -> Nat
  | [] => if pat.isEmpty then 1 else 0
  | a :: rest => (if isPre pat (a :: rest) then 1 else 0) + countOcc pat rest

lemma isPre_reset_cons (a : Char) (l : List Char) (h : a ≠ '\x1b') :
    isPre resetChars (a :: l) = false := by
  have hb : (('\x1b' : Char) == a) = false := beq_eq_false_iff_ne.mpr (fun e => h e.symm)
  simp [resetChars, isPre, hb]

lemma countOcc_skip (a : Char) (h : a ≠ '\x1b') (l : List Char) :
    countOcc resetChars (a :: l) = countOcc resetChars l := by
  simp [countOcc, isPre_reset_cons a l h]

lemma countOcc_noEsc (s l : List Char) (h : '\x1b' ∉ s) :
    countOcc resetChars (s ++ l) = countOcc resetChars l := by
  induction s with
  | nil => rfl
  | cons a s ih =>
    have ha : a ≠ '\x1b' := fun e => h (e.symm ▸ List.mem_cons_self a s)
    rw [List.cons_append, countOcc_skip a ha, ih (fun m => h (List.mem_cons_of_mem a m))]

lemma countOcc_reset_append (l : List Char) :
    countOcc resetChars (resetChars ++ l) = 1 + countOcc resetChars l := by
  show countOcc resetChars ('\x1b' :: '[' :: '0' :: 'm' :: l) = 1 + countOcc resetChars l
  have h1 : isPre resetChars ('\x1b' :: '[' :: '0' :: 'm' :: l) = true := by
    simp [resetChars, isPre]
  rw [countOcc, h1]
  simp [countOcc_skip '[' (by decide), countOcc_skip '0' (by decide),
    countOcc_skip 'm' (by decide)]

lemma isPre_reset_esc (y z : Char) (l : List Char) (h : z ≠ '0') :
    isPre resetChars ('\x1b' :: y :: z :: l) = false := by
  have hb : (('0' : Char) == z) = false := beq_eq_false_iff_ne.mpr (fun e => h e.symm)
  simp [resetChars, isPre, hb]

lemma countOcc_esc_skip (y z : Char) (h : z ≠ '0') (l : List Char) :
    countOcc resetChars ('\x1b' :: y :: z :: l) = countOcc resetChars (y :: z :: l) := by
  simp [countOcc, isPre_reset_esc y z l h]

lemma code_skip_aux (y z : Char) (zs : List Char) (hz : z ≠ '0')
    (hesc : '\x1b' ∉ (y :: z :: zs)) (l : List Char) :
    countOcc resetChars (('\x1b' :: y :: z :: zs) ++ l) = countOcc resetChars l := by
  have h1 : ('\x1b' :: y :: z :: zs) ++ l = '\x1b' :: y :: z :: (zs ++ l) := by simp
  rw [h1, countOcc_esc_skip y z hz]
  exact countOcc_noEsc (y :: z :: zs) l hesc

lemma code_skip (c : Colour) (h : c ≠ Colour.RESET) (l : List Char) :
    countOcc resetChars (c.value.data ++ l) = countOcc resetChars l := by
  cases c with
  | RESET => exact absurd rfl h
  | RED => exact code_skip_aux '[' '3' ['1', 'm'] (by decide) (by decide) l
  | GREEN => exact code_skip_aux '[' '3' ['2', 'm'] (by decide) (by decide) l
  | YELLOW => exact code_skip_aux '[' '3' ['3', 'm'] (by decide) (by decide) l
  | BLUE => exact code_skip_aux '[' '3' ['4', 'm'] (by decide) (by decide) l
  | CYAN => exact code_skip_aux '[' '3' ['6', 'm'] (by decide) (by decide) l
  | MAGENTA => exact code_skip_aux '[' '3' ['5', 'm'] (by decide) (by decide) l
  | WHITE => exact code_skip_aux '[' '3' ['7', 'm'] (by decide) (by decide) l
  | BLACK => exact code_skip_aux '[' '3' ['0', 'm'] (by decide) (by decide) l
  | LIGHTRED => exact code_skip_aux '[' '9' ['1', 'm'] (by decide) (by decide) l
  | LIGHTGREEN => exact code_skip_aux '[' '9' ['2', 'm'] (by decide) (by decide) l
  | LIGHTYELLOW => exact code_skip_aux '[' '9' ['3', 'm'] (by decide) (by decide) l
  | LIGHTBLUE => exact code_skip_aux '[' '9' ['4', 'm'] (by decide) (by decide) l
  | LIGHTMAGENTA => exact code_skip_aux '[' '9' ['5', 'm'] (by decide) (by decide) l
  | LIGHTCYAN => exact code_skip_aux '[' '9' ['6', 'm'] (by decide) (by decide) l
  | GREY => exact code_skip_aux '[' '9' ['0', 'm'] (by decide) (by decide) l
  | BG_RED => exact code_skip_aux '[' '4' ['1', 'm'] (by decide) (by decide) l
  | BG_GREEN => exact code_skip_aux '[' '4' ['2', 'm'] (by decide) (by decide) l
  | BG_YELLOW => exact code_skip_aux '[' '4' ['3', 'm'] (by decide) (by decide) l
  | BG_BLUE => exact code_skip_aux '[' '4' ['4', 'm'] (by decide) (by decide) l
  | BG_CYAN => exact code_skip_aux '[' '4' ['6', 'm'] (by decide) (by decide) l
  | BG_MAGENTA => exact code_skip_aux '[' '4' ['5', 'm'] (by decide) (by decide) l
  | BG_WHITE => exact code_skip_aux '[' '4' ['7', 'm'] (by decide) (by decide) l
  | BG_BLACK => exact code_skip_aux '[' '4' ['0', 'm'] (by decide) (by decide) l
  | BG_LIGHTRED => exact code_skip_aux '[' '1' ['0', '1', 'm'] (by decide) (by decide) l
  | BG_LIGHTGREEN => exact code_skip_aux '[' '1' ['0', '2', 'm'] (by decide) (by decide) l
  | BG_LIGHTYELLOW => exact code_skip_aux '[' '1' ['0', '3', 'm'] (by decide) (by decide) l
  | BG_LIGHTBLUE => exact code_skip_aux '[' '1' ['0', '4', 'm'] (by decide) (by decide) l
  | BG_LIGHTMAGENTA => exact code_skip_aux '[' '1' ['0', '5', 'm'] (by decide) (by decide) l
  | BG_LIGHTCYAN => exact code_skip_aux '[' '1' ['0', '6', 'm'] (by decide) (by decide) l
  | BG_GREY => exact code_skip_aux '[' '1' ['0', '0', 'm'] (by decide) (by decide) l
  | BRIGHT => exact code_skip_aux '[' '1' ['m'] (by decide) (by decide) l
  | DIM => exact code_skip_aux '[' '2' ['m'] (by decide) (by decide) l
  | NORMAL => exact code_skip_aux '[' '2' ['2', 'm'] (by decide) (by decide) l


lemma getD_mem {α : Type} (l : List α) (i : Nat) (d : α) (h : i < l.length) : l.getD i d ∈ l := by
  rw [List.getD_eq_getElem l d h]; exact List.getElem_mem h

lemma memberPool_ne_nil : memberPool ≠ [] := by decide

lemma poolOf_ne_nil (pool : Option (List Colour)) : poolOf pool ≠ [] := by
  cases pool with
  | none => exact memberPool_ne_nil
  | some p =>
    by_cases hp : p.isEmpty
    · simp [poolOf, hp]; exact fun h => memberPool_ne_nil (by simpa using h)
    · simp [poolOf, hp]; exact fun h => hp (by simp [h])

lemma pick_mem_poolOf (pool : Option (List Colour)) (r : Nat) : pick pool r ∈ poolOf pool := by
  unfold pick
  exact getD_mem _ _ _ (Nat.mod_lt _ (List.length_pos.mpr (poolOf_ne_nil pool)))

/-- C3: a supported payload (None, bool, int, float, str) is wrapped as
escape code, str(payload), reset code; any other payload kind fails with the
format error naming the offending kind; the accepted kinds are exactly the
non-foreign payloads. -/
theorem C3_scalar_apply (c : Colour) (p : Payload) :
    (p.isSupported = true →
      colourCall c p = .ok (c.value ++ pyStr p ++ Colour.RESET.value)) ∧
    (p.isSupported = false →
      colourCall c p = .error (.colourFormatError ("Unsupported type: " ++ typeName p))) ∧
    (p.isSupported = false ↔ ∃ k s, p = .pOther k s) := by
  refine ⟨fun h => by simp [colourCall, h], fun h => by simp [colourCall, h], ?_⟩
  cases p <;> simp [Payload.isSupported]

theorem C3_scalar_apply_witness :
    colourCall Colour.RED (Payload.pStr "Error") = .ok "\x1b[31mError\x1b[0m" ∧
    colourCall Colour.RED (Payload.pOther "list" "[1]") =
      .error (.colourFormatError "Unsupported type: list") :=
  ⟨((C3_scalar_apply Colour.RED (Payload.pStr "Error")).1 (by decide)).trans (by decide),
   ((C3_scalar_apply Colour.RED (Payload.pOther "list" "[1]")).2.1 (by decide)).trans (by decide)⟩

/-- The four pseudo-styles the spec names as the exact exclusion set. -/
def pseudoNames : List String := ["BRIGHT", "DIM", "NORMAL", "RESET"]

/-- C5: enumeration by name and by member returns the catalogue in
declaration order with exactly the four attribute/reset pseudo-styles
excluded, the two lists have equal length, and any other mode string fails
with the invalid-mode error. -/
theorem C5_enumerate :
    (∀ m : String, m ≠ "name" → m ≠ "member" →
      get_supported_colours m = .error (.valueError ("Invalid mode: " ++ m))) ∧
    get_supported_colours "name" =
      .ok (((members.map Prod.fst).filter (fun n => !(pseudoNames.contains n))).map EnumItem.nameItem) ∧
    get_supported_colours "member" =
      .ok ((members.filter (fun p => !(pseudoNames.contains p.1))).map (fun p => EnumItem.memberItem p.2)) ∧
    (∃ ns ms : List EnumItem, get_supported_colours "name" = .ok ns ∧
      get_supported_colours "member" = .ok ms ∧ ns.length = ms.length ∧ ns.length = 30) := by
  refine ⟨?_, by decide, by decide, ⟨_, _, rfl, rfl, by decide, by decide⟩⟩
  intro m h1 h2
  have e1 : (m == "member") = false := beq_eq_false_iff_ne.mpr h2
  have e2 : (m == "name") = false := beq_eq_false_iff_ne.mpr h1
  simp [get_supported_colours, e1, e2]

theorem C5_enumerate_witness :
    get_supported_colours "bogus" = .error (.valueError "Invalid mode: bogus") :=
  ((C5_enumerate).1 "bogus" (by decide) (by decide)).trans (by decide)

/-- C2 counterexample: a random draw with an explicitly supplied empty pool
does not fail; it silently falls back to the default pool (Python
`pool or self._pool` treats the empty list as falsy) and produces styled
output. -/
theorem C2_counterexample :
    randomSINGLE 0 (Payload.pStr "x") (some []) = .ok "\x1b[31mx\x1b[0m" ∧
    randomSINGLE 0 (Payload.pStr "x") (some []) = randomSINGLE 0 (Payload.pStr "x") none :=
  ⟨by decide, rfl⟩

/-- C2 amended: a nonempty explicit pool restricts the draw to that pool;
an empty explicit pool does not raise but falls back to the default
catalogue pool, exactly as if no pool had been supplied. -/
theorem C2_amended (r : Nat) (pool : List Colour) (h : pool ≠ []) :
    pick (some pool) r ∈ pool ∧
    (∀ r2 : Nat, pick (some []) r2 = pick none r2) ∧
    pick none r ∈ memberPool := by
  refine ⟨?_, fun r2 => rfl, pick_mem_poolOf none r⟩
  have : poolOf (some pool) = pool := by simp [poolOf, h]
  have hm := pick_mem_poolOf (some pool) r
  rwa [this] at hm

theorem C2_amended_witness :
    pick (some [Colour.GREEN]) 7 ∈ [Colour.GREEN] ∧
    (∀ r2 : Nat, pick (some []) r2 = pick none r2) ∧
    pick none 7 ∈ memberPool :=
  C2_amended 7 [Colour.GREEN] (by decide)

/-- C9: every top-level random-formatter call makes one draw from the
effective candidate pool and delegates to the corresponding fixed-style
formatter with that single drawn style, so all elements styled within one
call carry the same escape code. -/
theorem C9_single_draw (r : Nat) (pool : Option (List Colour)) (v : Payload)
    (items : List Payload) (idxs : Option (List Int)) (ditems : List (String × String))
    (ks vs : Option (List String)) (t : String) :
    ∃ col, col ∈ poolOf pool ∧
      randomSINGLE r v pool = colourCall col v ∧
      randomLIST r items idxs pool = ListFormatter col items idxs ∧
      randomTUPLE r items idxs pool = TupleFormatter col items idxs ∧
      randomDICT r ditems ks vs t pool = DictFormatter col ditems ks vs t :=
  ⟨pick pool r, pick_mem_poolOf pool r, rfl, rfl, rfl, rfl⟩

/-- C10: the target formatter accepts any payload kind and never fails: it
stringifies the input (and each target literal at construction) before the
per-character pass, so foreign objects are styled through their str() form,
unlike the scalar applicator, which rejects them. -/
theorem C10_target_total (c : Colour) (ts : List Payload) (p : Payload) :
    targetCall (TARGET c ts) p = targetCall (TARGET c ts) (Payload.pStr (pyStr p)) ∧
    TARGET c ts = TARGET c (ts.map (fun x => Payload.pStr (pyStr x))) ∧
    colourCall c (.pOther "list" "[1, 2, 11]") =
      .error (.colourFormatError "Unsupported type: list") ∧
    targetCall (TARGET Colour.RED [Payload.pStr "1"]) (Payload.pOther "list" "[1, 2, 11]") =
      "[" ++ "\x1b[31m1\x1b[0m" ++ ", 2, " ++ "\x1b[31m1\x1b[0m" ++ "\x1b[31m1\x1b[0m" ++ "]" := by
  refine ⟨rfl, ?_, rfl, by decide⟩
  unfold TARGET
  rw [List.map_map]
  rfl

lemma DictFormatter_ok_inv (c : Colour) (items : List (String × String))
    (ks vs : Option (List String)) (t : String) (out : List (String × String))
    (h : DictFormatter c items ks vs t = .ok out) :
    out = items.foldl (fun o kv =>
      dictInsert o (dictEntry c ks vs t kv).1 (dictEntry c ks vs t kv).2) [] := by
  unfold DictFormatter at h
  split at h
  · exact absurd h (by simp)
  · split at h
    · exact absurd h (by simp)
    · split at h
      · exact absurd h (by simp)
      · simpa using h.symm

lemma dictEntry_value_fst (c : Colour) (ks vs : Option (List String)) (kv : String × String) :
    (dictEntry c ks vs "value" kv).1 = kv.1 := by
  unfold dictEntry
  rw [if_neg (by decide), if_pos (by decide)]

/-- C1 counterexample: styling the keys replaces them — with target "key"
the single key "a" comes back as the styled string, so the output's key
list differs from the input's; and when a produced styled key collides
with another key of the dict, dict assignment merges the two entries. -/
theorem C1_counterexample :
    DictFormatter Colour.RED [("a", "x")] none none "key" =
      .ok [("\x1b[31ma\x1b[0m", "x")] ∧
    ([("\x1b[31ma\x1b[0m", "x")] : List (String × String)).map Prod.fst ≠
      ([("a", "x")] : List (String × String)).map Prod.fst ∧
    DictFormatter Colour.RED [("\x1b[31ma\x1b[0m", "v1"), ("a", "v2")]
        (some ["a"]) none "key" =
      .ok [("\x1b[31ma\x1b[0m", "v2")] :=
  ⟨by decide, by decide, by decide⟩

lemma dictInsert_new (out : List (String × String)) (k v : String)
    (h : k ∉ out.map Prod.fst) : dictInsert out k v = out ++ [(k, v)] := by
  unfold dictInsert
  rw [if_neg (fun hc => h (List.elem_iff.mp hc))]

lemma foldl_value_keys (c : Colour) (ks vs : Option (List String))
    (items acc : List (String × String))
    (hnd : (acc.map Prod.fst ++ items.map Prod.fst).Nodup) :
    ((items.foldl (fun out kv =>
        dictInsert out (dictEntry c ks vs "value" kv).1
          (dictEntry c ks vs "value" kv).2) acc).map Prod.fst) =
      acc.map Prod.fst ++ items.map Prod.fst := by
  induction items generalizing acc with
  | nil => simp
  | cons kv items ih =>
    rw [List.foldl_cons]
    rw [List.map_cons] at hnd
    have hnotin : kv.1 ∉ acc.map Prod.fst := fun hin =>
      ((List.nodup_append.mp hnd).2.2 hin) (List.mem_cons_self kv.1 (items.map Prod.fst))
    rw [dictEntry_value_fst c ks vs kv, dictInsert_new acc kv.1 _ hnotin]
    rw [ih (acc ++ [(kv.1, (dictEntry c ks vs "value" kv).2)]) ?_]
    · simp
    · simpa using hnd

/-- C1 amended: with the input's keys pairwise distinct (as they are in a
Python dict), a call with target "value" returns a mapping with exactly
the input's keys in the input's iteration order; under "key" or "both" a
selected key is replaced in place by its styled string, so the key set is
not preserved. -/
theorem C1_mapping_keys (c : Colour) (items : List (String × String))
    (ks vs : Option (List String)) (hnd : (items.map Prod.fst).Nodup) :
    ∀ out, DictFormatter c items ks vs "value" = .ok out →
      out.map Prod.fst = items.map Prod.fst := by
  intro out h
  rw [DictFormatter_ok_inv c items ks vs "value" out h]
  simpa using foldl_value_keys c ks vs items [] (by simpa using hnd)

theorem C1_mapping_keys_witness :
    ([("name", "\x1b[31mAlice\x1b[0m"), ("age", "\x1b[31m30\x1b[0m")] : List (String × String)).map Prod.fst =
      ([("name", "Alice"), ("age", "30")] : List (String × String)).map Prod.fst :=
  C1_mapping_keys Colour.RED [("name", "Alice"), ("age", "30")] none none (by decide)
    [("name", "\x1b[31mAlice\x1b[0m"), ("age", "\x1b[31m30\x1b[0m")] (by decide)

/-- The target formatting contract, stated from the spec: per character of
the input text, a character that is a member (by exact, case-sensitive
literal equality) of the target set is wrapped as style code, character,
reset code; any other character passes through unchanged; the pieces are
concatenated with nothing inserted. -/
def targetSpecFormat (c : Colour) (targetSet : List String) (text : String) : String :=
  String.join (text.data.map (fun ch =>
    if ch.toString ∈ targetSet then c.value ++ ch.toString ++ Colour.RESET.value
    else ch.toString))

/-- C8: the constructed target formatter realises exactly the per-character
exact-membership contract on every input, and on the spec's example wraps
"A" and "1" individually, leaving "b" untouched; matching is
case-sensitive ("a" targeted does not match "A"). -/
theorem C8_target_chars (c : Colour) (ts : List Payload) (t : Payload) :
    targetCall (TARGET c ts) t = targetSpecFormat c (ts.map pyStr) (pyStr t) ∧
    targetCall (TARGET Colour.YELLOW [Payload.pStr "A", Payload.pStr "1"]) (Payload.pStr "A1b") =
      Colour.YELLOW.value ++ "A" ++ Colour.RESET.value ++
        (Colour.YELLOW.value ++ "1" ++ Colour.RESET.value) ++ "b" ∧
    targetCall (TARGET Colour.CYAN [Payload.pStr "a"]) (Payload.pStr "AaAa") =
      "A" ++ (Colour.CYAN.value ++ "a" ++ Colour.RESET.value) ++
        "A" ++ (Colour.CYAN.value ++ "a" ++ Colour.RESET.value) := by
  refine ⟨?_, by decide, by decide⟩
  unfold targetCall targetSpecFormat TARGET
  congr 1
  refine List.map_congr_left (fun ch _ => ?_)
  by_cases h : ch.toString ∈ ts.map pyStr
  · rw [if_pos (List.elem_iff.mpr h), if_pos h]
  · rw [if_neg (fun hc => h (List.elem_iff.mp hc)), if_neg h]

lemma isSupported_of_isStr (p : Payload) (h : p.isStr = true) : p.isSupported = true := by
  cases p <;> simp_all [Payload.isStr, Payload.isSupported]

lemma colourCall_ok (c : Colour) (p : Payload) (h : p.isSupported = true) :
    colourCall c p = .ok (c.value ++ pyStr p ++ Colour.RESET.value) := by
  simp [colourCall, h]

lemma mapM_styled_ok (c : Colour) (xs : List Payload) (h : xs.all Payload.isStr = true) :
    xs.mapM (fun i => (colourCall c i).map Payload.pStr) = .ok (xs.map (stylePayload c)) := by
  induction xs with
  | nil => rfl
  | cons a xs ih =>
    rw [List.all_cons, Bool.and_eq_true] at h
    rw [List.mapM_cons, colourCall_ok c a (isSupported_of_isStr a h.1), ih h.2]
    rfl

/-- The index list 0, 1, ..., n-1 as Python ints. -/
def fullRange (n : Nat) : List Int := (List.range n).map Int.ofNat

lemma find?_fullRange_none (n : Nat) :
    (fullRange n).find? (fun idx => decide (idx < 0) || decide ((n : Int) ≤ idx)) = none := by
  rw [List.find?_eq_none]
  intro x hx
  rw [fullRange, List.mem_map] at hx
  obtain ⟨i, hi, rfl⟩ := hx
  rw [List.mem_range] at hi
  simp only [Bool.or_eq_true, decide_eq_true_eq, not_or, Int.ofNat_eq_coe]
  omega

lemma contains_fullRange (n i : Nat) (h : i < n) : (fullRange n).contains ((i : Nat) : Int) = true :=
  List.elem_iff.mpr (by rw [fullRange, List.mem_map]; exact ⟨i, List.mem_range.mpr h, rfl⟩)

lemma enumFrom_mapM_all (c : Colour) (xs : List Payload) (idxs : List Int) (n : Nat)
    (h : ∀ i : Nat, n ≤ i → i < n + xs.length → idxs.contains ((i : Nat) : Int) = true) :
    (List.enumFrom n xs).mapM (fun p =>
      if idxs.contains ((p.1 : Nat) : Int) then (colourCall c p.2).map Payload.pStr else .ok p.2) =
    xs.mapM (fun i => (colourCall c i).map Payload.pStr) := by
  induction xs generalizing n with
  | nil => rfl
  | cons a xs ih =>
    simp only [List.enumFrom_cons, List.mapM_cons]
    rw [if_pos (h n le_rfl (by simp))]
    rw [ih (n + 1) (fun i h1 h2 => h i (by omega) (by simp only [List.length_cons]; omega))]

/-- C6: styling a sequence with no index set coincides with styling it with
the full index set 0..len-1, for the list and the tuple formatter alike;
with no index set every element is styled in place, and the output keeps
the input's length and order. -/
theorem C6_full_range (c : Colour) (xs : List Payload) :
    ListFormatter c xs none = ListFormatter c xs (some (fullRange xs.length)) ∧
    TupleFormatter c xs none = TupleFormatter c xs (some (fullRange xs.length)) ∧
    (xs.all Payload.isStr = true →
      ListFormatter c xs none = .ok (xs.map (stylePayload c)) ∧
      (xs.map (stylePayload c)).length = xs.length) := by
  have hbranch : ∀ e : Except PyError (List Payload),
      (if !(xs.all Payload.isStr) then e
       else xs.mapM (fun i => (colourCall c i).map Payload.pStr)) =
      (if !(xs.all Payload.isStr) then e
       else
        match (fullRange xs.length).find?
            (fun idx => decide (idx < 0) || decide ((xs.length : Int) ≤ idx)) with
        | some bad => .error (.listIndexOutOfRange ("Index " ++ toString bad ++ " out of range."))
        | none =>
          xs.enum.mapM (fun p =>
            if (fullRange xs.length).contains ((p.1 : Nat) : Int) then
              (colourCall c p.2).map Payload.pStr
            else .ok p.2)) := by
    intro e
    by_cases hstr : xs.all Payload.isStr = true
    · rw [if_neg (by simp [hstr]), if_neg (by simp [hstr]), find?_fullRange_none]
      rw [show xs.enum = List.enumFrom 0 xs from rfl]
      exact (enumFrom_mapM_all c xs (fullRange xs.length) 0
        (fun i h1 h2 => contains_fullRange xs.length i (by omega))).symm
    · have hf : xs.all Payload.isStr = false := by
        revert hstr; cases (xs.all Payload.isStr) <;> simp
      rw [if_pos (by simp [hf]), if_pos (by simp [hf])]
  refine ⟨hbranch _, hbranch _, fun hstr => ⟨?_, by simp⟩⟩
  unfold ListFormatter
  rw [if_neg (by simp [hstr])]
  exact mapM_styled_ok c xs hstr

theorem C6_full_range_witness :
    ListFormatter Colour.GREEN [Payload.pStr "apple", Payload.pStr "pear"] none =
      .ok [Payload.pStr "\x1b[32mapple\x1b[0m", Payload.pStr "\x1b[32mpear\x1b[0m"] ∧
    ([Payload.pStr "\x1b[32mapple\x1b[0m", Payload.pStr "\x1b[32mpear\x1b[0m"] : List Payload).length = 2 := by
  have h := (C6_full_range Colour.GREEN [Payload.pStr "apple", Payload.pStr "pear"]).2.2 (by decide)
  exact ⟨h.1.trans (by decide), by decide⟩

/-- C7: with all elements strings and any supplied index outside
0 <= index < length, the sequence formatter fails with the
index-out-of-range error citing the first offending index, before any
styling; in particular the index len(xs) itself is rejected with a message
citing len(xs), and no partial output is produced (the result is the error
alone). -/
theorem C7_index_bounds (c : Colour) (xs : List Payload) (idxs : List Int)
    (hstr : xs.all Payload.isStr = true)
    (hbad : ∃ i ∈ idxs, i < 0 ∨ (xs.length : Int) ≤ i) :
    (∃ bad, bad ∈ idxs ∧ (bad < 0 ∨ (xs.length : Int) ≤ bad) ∧
      ListFormatter c xs (some idxs) =
        .error (.listIndexOutOfRange ("Index " ++ toString bad ++ " out of range."))) ∧
    ListFormatter c xs (some [(xs.length : Int)]) =
      .error (.listIndexOutOfRange ("Index " ++ toString (xs.length : Int) ++ " out of range.")) := by
  constructor
  · have hsome : ((idxs.find? (fun idx => decide (idx < 0) || decide ((xs.length : Int) ≤ idx))).isSome ) = true := by
      rw [List.find?_isSome]
      obtain ⟨i, hi, hcond⟩ := hbad
      exact ⟨i, hi, by simpa using hcond⟩
    obtain ⟨bad, hfind⟩ := Option.isSome_iff_exists.mp hsome
    refine ⟨bad, List.mem_of_find?_eq_some hfind, by simpa using List.find?_some hfind, ?_⟩
    unfold ListFormatter
    rw [if_neg (by simp [hstr])]
    dsimp only
    rw [hfind]
  · unfold ListFormatter
    rw [if_neg (by simp [hstr])]
    dsimp only
    have hp : (decide ((xs.length : Int) < 0) || decide ((xs.length : Int) ≤ (xs.length : Int))) = true := by
      simp
    simp only [List.find?, hp]

theorem C7_index_bounds_witness :
    ∃ bad, bad ∈ [(3 : Int)] ∧
      (bad < 0 ∨ (([Payload.pStr "a", Payload.pStr "b"] : List Payload).length : Int) ≤ bad) ∧
      ListFormatter Colour.RED [Payload.pStr "a", Payload.pStr "b"] (some [(3 : Int)]) =
        .error (.listIndexOutOfRange ("Index " ++ toString bad ++ " out of range.")) :=
  (C7_index_bounds Colour.RED [Payload.pStr "a", Payload.pStr "b"] [(3 : Int)]
    (by decide) ⟨3, by decide, by decide⟩).1

lemma reset_value_data : (Colour.RESET.value).data = resetChars := rfl

lemma data_foldl_append (l : List String) (acc : String) :
    (l.foldl (fun r s => r ++ s) acc).data = acc.data ++ (l.map String.data).flatten := by
  induction l generalizing acc with
  | nil => simp
  | cons s l ih =>
    simp only [List.foldl_cons, List.map_cons, List.flatten_cons]
    rw [ih (acc ++ s), String.data_append, List.append_assoc]

lemma data_join (l : List String) : (String.join l).data = (l.map String.data).flatten := by
  rw [show String.join l = l.foldl (fun r s => r ++ s) "" from rfl, data_foldl_append]
  rfl

lemma countOcc_applyStr (c : Colour) (hc : c ≠ Colour.RESET) (s : String)
    (hs : '\x1b' ∉ s.data) (l : List Char) :
    countOcc resetChars ((applyStr c s).data ++ l) = 1 + countOcc resetChars l := by
  show countOcc resetChars ((c.value ++ s ++ Colour.RESET.value).data ++ l) = _
  rw [String.data_append, String.data_append, reset_value_data,
    List.append_assoc, List.append_assoc,
    code_skip c hc, countOcc_noEsc s.data _ hs, countOcc_reset_append]

lemma countOcc_scalar (c : Colour) (hc : c ≠ Colour.RESET) (s : String)
    (hs : '\x1b' ∉ s.data) :
    countOcc resetChars (applyStr c s).data = 1 := by
  have h := countOcc_applyStr c hc s hs []
  rw [List.append_nil] at h
  rw [h]
  rfl

lemma codes_flatten_skip (cs : List Colour) (h : ∀ o ∈ cs, o ≠ Colour.RESET) (l : List Char) :
    countOcc resetChars (((cs.map Colour.value).map String.data).flatten ++ l) =
      countOcc resetChars l := by
  induction cs with
  | nil => simp
  | cons a cs ih =>
    simp only [List.map_cons, List.flatten_cons, List.append_assoc]
    rw [code_skip a (h a (List.mem_cons_self a cs))]
    exact ih (fun o ho => h o (List.mem_cons_of_mem a ho))

lemma countOcc_styled (c : Colour) (others : List Colour) (text : String)
    (hc : c ≠ Colour.RESET) (hoth : ∀ o ∈ others, o ≠ Colour.RESET)
    (ht : '\x1b' ∉ text.data) :
    resetChars <:+ (styled c text others).data ∧
    countOcc resetChars (styled c text others).data = 1 := by
  unfold styled
  rw [String.data_append, String.data_append, reset_value_data]
  constructor
  · exact List.suffix_append _ _
  · rw [List.append_assoc, data_join]
    rw [codes_flatten_skip (c :: others)
      (fun o ho => by rcases List.mem_cons.mp ho with h | h; exact h ▸ hc; exact hoth o h)]
    rw [countOcc_noEsc text.data _ ht]
    decide

lemma targetCall_data (f : TargetFormatter) (t : Payload) :
    (targetCall f t).data = (((pyStr t).data.map (fun ch =>
      if f.targets.contains ch.toString then f.colour.value ++ ch.toString ++ Colour.RESET.value
      else ch.toString)).map String.data).flatten := by
  unfold targetCall
  exact data_join _

lemma countOcc_nil : countOcc resetChars [] = 0 := by decide

lemma target_chars_count (c : Colour) (hc : c ≠ Colour.RESET) (tset : List String)
    (chs : List Char) (h : '\x1b' ∉ chs) :
    countOcc resetChars (((chs.map (fun ch =>
        if tset.contains ch.toString then c.value ++ ch.toString ++ Colour.RESET.value
        else ch.toString)).map String.data).flatten) =
    (chs.filter (fun ch => tset.contains ch.toString)).length := by
  induction chs with
  | nil => simp [countOcc_nil]
  | cons a chs ih =>
    have ha : a ≠ '\x1b' := fun e => h (e ▸ List.mem_cons_self a chs)
    have h' : '\x1b' ∉ chs := fun m => h (List.mem_cons_of_mem a m)
    by_cases hm : tset.contains a.toString = true
    · simp only [List.map_cons, List.flatten_cons, List.filter_cons]
      rw [if_pos hm, if_pos hm]
      rw [String.data_append, String.data_append, reset_value_data,
        show a.toString.data = [a] from rfl,
        List.append_assoc, List.append_assoc, code_skip c hc,
        show ∀ r : List Char, ([a] : List Char) ++ r = a :: r from fun _ => rfl,
        countOcc_skip a ha, countOcc_reset_append, ih h']
      simp [Nat.add_comm]
    · simp only [List.map_cons, List.flatten_cons, List.filter_cons]
      rw [if_neg hm, if_neg hm,
        show a.toString.data = [a] from rfl,
        show ∀ r : List Char, ([a] : List Char) ++ r = a :: r from fun _ => rfl,
        countOcc_skip a ha, ih h']

/-- C4 counterexample: one target-formatter call with a single style
requested produces a string that does not end with the reset sequence and
contains two reset sequences. -/
theorem C4_counterexample :
    targetCall (TARGET Colour.YELLOW [Payload.pStr "A", Payload.pStr "1"]) (Payload.pStr "A1b") =
      "\x1b[33mA\x1b[0m\x1b[33m1\x1b[0mb" ∧
    ¬ resetChars <:+ ("\x1b[33mA\x1b[0m\x1b[33m1\x1b[0mb" : String).data ∧
    countOcc resetChars ("\x1b[33mA\x1b[0m\x1b[33m1\x1b[0mb" : String).data = 2 :=
  ⟨by decide, by decide, by decide⟩

/-- C4 amended: for a non-reset style and payload text free of escape
characters, the scalar applicator's output ends with the reset sequence and
contains exactly one occurrence of it, and likewise the composite styled
output when no combined style is the reset pseudo-style; the target
formatter instead wraps each matched character individually, so its output
contains exactly one reset occurrence per matched character (and hence need
not end with a reset). -/
theorem C4_reset_discipline (c : Colour) (p : Payload) (others : List Colour) (text : String)
    (ts : List Payload) (t : Payload)
    (hc : c ≠ Colour.RESET) (hp : p.isSupported = true) (hpe : '\x1b' ∉ (pyStr p).data)
    (hoth : ∀ o ∈ others, o ≠ Colour.RESET) (hte : '\x1b' ∉ text.data)
    (hts : '\x1b' ∉ (pyStr t).data) :
    (colourCall c p = .ok (applyStr c (pyStr p)) ∧
      resetChars <:+ (applyStr c (pyStr p)).data ∧
      countOcc resetChars (applyStr c (pyStr p)).data = 1) ∧
    (resetChars <:+ (styled c text others).data ∧
      countOcc resetChars (styled c text others).data = 1) ∧
    countOcc resetChars (targetCall (TARGET c ts) t).data =
      ((pyStr t).data.filter (fun ch => (ts.map pyStr).contains ch.toString)).length := by
  refine ⟨⟨colourCall_ok c p hp, ?_, countOcc_scalar c hc (pyStr p) hpe⟩,
    countOcc_styled c others text hc hoth hte, ?_⟩
  · unfold applyStr
    rw [String.data_append, String.data_append, reset_value_data]
    exact List.suffix_append _ _
  · rw [targetCall_data]
    exact target_chars_count c hc (ts.map pyStr) (pyStr t).data hts

theorem C4_reset_discipline_witness :
    (colourCall Colour.RED (Payload.pStr "hi") = .ok (applyStr Colour.RED (pyStr (Payload.pStr "hi"))) ∧
      resetChars <:+ (applyStr Colour.RED (pyStr (Payload.pStr "hi"))).data ∧
      countOcc resetChars (applyStr Colour.RED (pyStr (Payload.pStr "hi"))).data = 1) ∧
    (resetChars <:+ (styled Colour.RED "ok" [Colour.BRIGHT]).data ∧
      countOcc resetChars (styled Colour.RED "ok" [Colour.BRIGHT]).data = 1) ∧
    countOcc resetChars
        (targetCall (TARGET Colour.RED [Payload.pStr "A"]) (Payload.pStr "Ab")).data =
      ((pyStr (Payload.pStr "Ab")).data.filter
        (fun ch => ([Payload.pStr "A"].map pyStr).contains ch.toString)).length :=
  C4_reset_discipline Colour.RED (Payload.pStr "hi") [Colour.BRIGHT] "ok"
    [Payload.pStr "A"] (Payload.pStr "Ab")
    (by decide) (by decide) (by decide) (by decide) (by decide) (by decide)
end ColourModule
